import Mathlib

/-!
Verification development for the subscription execution pipeline of an
async GraphQL engine.  The definitions shallowly embed:

* `src/src/schema.rs` — the subscription registry (`SUBSCRIPTION_SENDERS`,
  a `Slab` of mpsc senders), the `publish` fanout, the subscription-stub
  compiler `create_subscription_types` and `create_subscription_stub`;
* `src/async-graphql-actix-web/src/session.rs` — the `WsSession` actor:
  heartbeat timer, inbound websocket frame handler, outbound byte relay.

Mutable state (the slab of senders, the actor's fields) is passed
explicitly; machine pointers/ids are `Nat`; fallible operations return
`Except`.  Parts of the crate that are not in the supplied sources
(`Context::is_skip`, the derived `SubscriptionType::create_type`, the
deregistration performed when a session's streams are dropped) are
modelled from the specification and marked as such in their doc comments.
-/

/-! ## Registry and publish (schema.rs, `SUBSCRIPTION_SENDERS` / `publish`) -/

/-- One registered subscriber channel (`mpsc::Sender<Arc<dyn Any>>`).
`closed = true` models a sender whose receiver has been dropped, so that
`send` fails; `inbox` is the sequence of messages accepted so far. -/
structure Sender where
  closed : Bool
  inbox : List Nat
deriving DecidableEq, Repr

/-- Channel send `sender.send(msg).await`: fails iff the receiver is gone, otherwise
the message is queued. -/
def sendMsg (s : Sender) (m : Nat) : Except Unit Sender :=
  if s.closed then Except.error () else Except.ok { s with inbox := s.inbox ++ [m] }

/-- The first loop of `publish`: iterate over all registered senders in
slot order, attempt each send, and collect the slot ids whose send
failed.  The map itself is not mutated during the iteration. -/
def fanout (m : Nat) : List (Nat × Sender) → List (Nat × Sender) × List Nat
  | [] => ([], [])
  | (id, s) :: rest =>
    match sendMsg s m with
    | Except.ok s2 =>
      let p := fanout m rest
      ((id, s2) :: p.1, p.2)
    | Except.error _ =>
      let p := fanout m rest
      ((id, s) :: p.1, id :: p.2)

/-- The second loop of `publish`: `for id in remove { senders.remove(id); }`. -/
def slabRemoveAll (senders : List (Nat × Sender)) (ids : List Nat) : List (Nat × Sender) :=
  ids.foldl (fun acc i => acc.filter (fun p => p.1 ≠ i)) senders

/-- The function `publish(msg)` (schema.rs 347-359): fan the message out to every
registered sender, then prune the entries whose send failed.  The Rust
function returns `()` and surfaces no error to the caller; here the
updated registry (the mutated global slab) is returned instead. -/
def publish (senders : List (Nat × Sender)) (m : Nat) : List (Nat × Sender) :=
  let p := fanout m senders
  slabRemoveAll p.1 p.2

/-- Delivery of one message to one healthy sender. -/
def deliver (m : Nat) (p : Nat × Sender) : Nat × Sender :=
  (p.1, { p.2 with inbox := p.2.inbox ++ [m] })

/-! ## Parsed query fragments (graphql_parser::query, as used by schema.rs) -/

/-- Argument values as needed by `@skip` / `@include`: a boolean literal,
a variable reference (substituted from the variable bindings), or some
other (non-boolean) value. -/
inductive GValue where
  | boolean (b : Bool)
  | variable (name : String)
  | other
deriving DecidableEq, Repr

/-- A directive occurrence: name plus named arguments. -/
structure GDirective where
  name : String
  args : List (String × GValue)
deriving DecidableEq, Repr

/-- One selection inside a selection set (`Selection` in
graphql_parser): a field (with its own directives and sub-selection), a
fragment spread, or an inline fragment. -/
inductive Selection where
  | field (name : String) (directives : List GDirective) (selectionSet : List Selection)
  | fragmentSpread (fragmentName : String) (directives : List GDirective)
  | inlineFragment (directives : List GDirective) (selectionSet : List Selection)
deriving Repr

/-- Variable bindings supplied with the request. -/
abbrev Variables := List (String × GValue)

/-- The error cases of `QueryError` that the subscription path can
produce, plus `recursionLimit`, a modelling artifact standing for
exhaustion of the (in Rust: unbounded) fragment-recursion stack. -/
inductive QueryError where
  | unknownFragment (name : String)
  | unknownOperationNamed (name : String)
  | missingOperation
  | invalidDirectiveArgument
  | fieldError
  | recursionLimit
deriving DecidableEq, Repr

/-- Substitute a variable reference by its binding (an absent binding
yields a non-boolean value, which `asBool` rejects). -/
def resolveValue (vars : Variables) : GValue → GValue
  | GValue.variable n =>
    match List.lookup n vars with
    | some v => v
    | none => GValue.other
  | v => v

/-- Require a boolean after substitution; a non-boolean `if` argument is
a validation error (spec §4.1), not a panic. -/
def asBool : GValue → Except QueryError Bool
  | GValue.boolean b => Except.ok b
  | _ => Except.error QueryError.invalidDirectiveArgument

/-- Modelled from the spec: `Context::is_skip` lives in `context.rs`,
which is not part of the supplied sources.  Spec §4.1: it evaluates the
standard `@skip(if:)` / `@include(if:)` directives against the bound
variables and returns whether the annotated selection must be omitted; a
non-boolean `if` argument is a validation error.  A `skip`/`include`
directive without an `if` argument is treated as absent. -/
def is_skip (vars : Variables) : List GDirective → Except QueryError Bool
  | [] => Except.ok false
  | d :: rest =>
    if d.name = ("skip") then
      match List.lookup ("if") d.args with
      | some v =>
        match asBool (resolveValue vars v) with
        | Except.error e => Except.error e
        | Except.ok true => Except.ok true
        | Except.ok false => is_skip vars rest
      | none => is_skip vars rest
    else if d.name = ("include") then
      match List.lookup ("if") d.args with
      | some v =>
        match asBool (resolveValue vars v) with
        | Except.error e => Except.error e
        | Except.ok false => Except.ok true
        | Except.ok true => is_skip vars rest
      | none => is_skip vars rest
    else is_skip vars rest

/-- The compiled output mapping `HashMap<TypeId, Field>`: event type ids
(modelled as `Nat`) to the field selection recorded for them. -/
abbrev TypeMap := List (Nat × Selection)

/-- A fragment table `HashMap<String, FragmentDefinition>`; only the
fragment's selection set is consumed by the compiler. -/
abbrev FragmentMap := List (String × List Selection)

/-- Walk of one subscription operation's selection set
(`create_subscription_types`, schema.rs 300-344), parametric in the
Subscription root type's `T::create_type` capability.  `fuel` bounds the
depth of fragment-spread recursion (unbounded call stack in Rust);
inline fragments recurse structurally.  Selections whose directives
evaluate to "omit" are skipped entirely; a spread of a name missing from
the fragment table fails with `unknownFragment`. -/
def create_subscription_types
    (createType : Selection → TypeMap → Except QueryError TypeMap)
    (vars : Variables) (fragments : FragmentMap) :
    Nat → List Selection → TypeMap → Except QueryError TypeMap
  | _, [], types => Except.ok types
  | fuel, Selection.field name dirs ss :: rest, types =>
    match is_skip vars dirs with
    | Except.error e => Except.error e
    | Except.ok true => create_subscription_types createType vars fragments fuel rest types
    | Except.ok false =>
      match createType (Selection.field name dirs ss) types with
      | Except.error e => Except.error e
      | Except.ok types2 => create_subscription_types createType vars fragments fuel rest types2
  | fuel, Selection.fragmentSpread fname dirs :: rest, types =>
    match is_skip vars dirs with
    | Except.error e => Except.error e
    | Except.ok true => create_subscription_types createType vars fragments fuel rest types
    | Except.ok false =>
      match List.lookup fname fragments with
      | some fsel =>
        match fuel with
        | 0 => Except.error QueryError.recursionLimit
        | fuel2 + 1 =>
          match create_subscription_types createType vars fragments fuel2 fsel types with
          | Except.error e => Except.error e
          | Except.ok types2 =>
            create_subscription_types createType vars fragments (fuel2 + 1) rest types2
      | none => Except.error (QueryError.unknownFragment fname)
  | fuel, Selection.inlineFragment dirs ss :: rest, types =>
    match is_skip vars dirs with
    | Except.error e => Except.error e
    | Except.ok true => create_subscription_types createType vars fragments fuel rest types
    | Except.ok false =>
      match create_subscription_types createType vars fragments fuel ss types with
      | Except.error e => Except.error e
      | Except.ok types2 => create_subscription_types createType vars fragments fuel rest types2
termination_by fuel sels _ => (fuel, sizeOf sels)

/-- Insertion (`HashMap::insert`) on the output map, restricted to the collision
policy stated in spec §4.2 (first registrant wins: an id already present
keeps its entry). -/
def insertType (types : TypeMap) (id : Nat) (f : Selection) : TypeMap :=
  if (List.lookup id types).isSome then types else types ++ [(id, f)]

/-- Modelled from the spec: the derived `SubscriptionType::create_type`
for the Subscription root type is generated by a macro crate not in the
supplied sources.  Spec §4.2: it determines which event type ids a field
can be satisfied by (`fieldTypes` on the field's name) and records the
field under each such id. -/
def modelCreateType (fieldTypes : String → List Nat) :
    Selection → TypeMap → Except QueryError TypeMap
  | Selection.field name dirs ss, types =>
    Except.ok ((fieldTypes name).foldl (fun acc id => insertType acc id (Selection.field name dirs ss)) types)
  | _, _ => Except.error QueryError.fieldError

/-! ## create_subscription_stub (schema.rs 227-286) -/

/-- A top-level definition of the parsed document as discriminated by
`create_subscription_stub`: a subscription operation, any other
operation (ignored by the loop), or a fragment definition. -/
inductive QDefinition where
  | subscriptionOp (name : Option String) (selectionSet : List Selection)
  | otherOp
  | fragmentDef (name : String) (selectionSet : List Selection)
deriving Repr

/-- Insertion (`HashMap::insert`) on the fragment table: a later definition with the
same name replaces the earlier binding. -/
def insertFragment (m : FragmentMap) (name : String) (sel : List Selection) : FragmentMap :=
  if (List.lookup name m).isSome then
    m.map (fun p => if p.1 = name then (name, sel) else p)
  else m ++ [(name, sel)]

/-- The definition-collection loop of `create_subscription_stub`
(schema.rs 242-255): walk the document in order, recording fragment
definitions, until the first subscription operation whose name matches
`operationName` is found — the loop `break`s there, so later
definitions (fragments included) are never examined. -/
def collectSubscription (operationName : Option String) :
    List QDefinition → FragmentMap → FragmentMap × Option (Option String × List Selection)
  | [], frags => (frags, none)
  | QDefinition.subscriptionOp n ss :: rest, frags =>
    if n = operationName then (frags, some (n, ss))
    else collectSubscription operationName rest frags
  | QDefinition.fragmentDef n ss :: rest, frags =>
    collectSubscription operationName rest (insertFragment frags n ss)
  | QDefinition.otherOp :: rest, frags => collectSubscription operationName rest frags

/-- The fragment definitions a prefix of the document contributes to the
table (used to state what `collectSubscription` hands to the compiler). -/
def collectFragments : List QDefinition → FragmentMap → FragmentMap
  | [], frags => frags
  | QDefinition.fragmentDef n ss :: rest, frags =>
    collectFragments rest (insertFragment frags n ss)
  | _ :: rest, frags => collectFragments rest frags

/-- The compiled form of one subscription operation. -/
structure SubscriptionStub where
  types : TypeMap
  fragments : FragmentMap

/-- The function `create_subscription_stub` (schema.rs 227-286) applied to an
already-parsed, rule-checked document (the GraphQL text parser and
`check_rules` are external collaborators, spec §1): collect fragments
and the matching subscription operation; fail with
`unknownOperationNamed` / `missingOperation` when no operation matches;
otherwise compile the operation's selection set starting from an empty
output map and return the stub. -/
def create_subscription_stub
    (createType : Selection → TypeMap → Except QueryError TypeMap) (fuel : Nat)
    (document : List QDefinition) (operationName : Option String) (vars : Variables) :
    Except QueryError SubscriptionStub :=
  match collectSubscription operationName document [] with
  | (_, none) =>
    Except.error
      (match operationName with
       | some n => QueryError.unknownOperationNamed n
       | none => QueryError.missingOperation)
  | (frags, some sub) =>
    match create_subscription_types createType vars frags fuel sub.2 [] with
    | Except.error e => Except.error e
    | Except.ok types => Except.ok ⟨types, frags⟩

/-! ## WsSession (async-graphql-actix-web/src/session.rs) -/

/-- Session lifecycle state: `closed` is the terminal state reached by
`ctx.stop()`. -/
inductive SState where
  | active
  | closed
deriving DecidableEq, Repr

/-- The inbound sink handed to the session by
`subscription_connection` (an `mpsc::Sender<Bytes>`); `closed` models a
sink whose receiving end has gone away, so `send` fails. -/
structure Sink where
  closed : Bool
  buf : List String
deriving DecidableEq, Repr

/-- The `WsSession` actor state: last-heartbeat instant (`hb`, as a
time coordinate in seconds), the lifecycle state, and the optional
inbound sink (`None` until `started` completes the connection setup). -/
structure Session where
  hb : Nat
  state : SState
  sink : Option Sink
deriving DecidableEq, Repr

/-- Inbound websocket frames (`actix_web_actors::ws::Message`); payloads
are byte lists. -/
inductive WsMsg where
  | ping (payload : List Nat)
  | pong (payload : List Nat)
  | text (s : String)
  | binary (b : List Nat)
  | close
  | continuation
  | nop
deriving DecidableEq, Repr

/-- Frames the session writes back to its transport: `ctx.pong(&msg)`
echoes, `ctx.text(...)` renders outbound subscription bytes. -/
inductive OutFrame where
  | pong (payload : List Nat)
  | text (bytes : List Nat)
deriving DecidableEq, Repr

/-- The inbound frame handler
`StreamHandler<Result<Message, ProtocolError>>::handle`
(session.rs 74-104), at time `now`: a protocol error stops the session;
ping updates `hb` and echoes a pong with the same payload; pong updates
`hb`; a text frame is relayed into the inbound sink with the send result
discarded (a failed send — sink closed — changes nothing and surfaces no
error); binary/close/continuation frames stop the session; `Nop` does
nothing. -/
def handleWsMessage (s : Session) (now : Nat) :
    Except Unit WsMsg → Session × List OutFrame
  | Except.error _ => ({ s with state := SState.closed }, [])
  | Except.ok (WsMsg.ping payload) => ({ s with hb := now }, [OutFrame.pong payload])
  | Except.ok (WsMsg.pong _) => ({ s with hb := now }, [])
  | Except.ok (WsMsg.text str) =>
    match s.sink with
    | none => (s, [])
    | some sk =>
      if sk.closed then (s, [])
      else ({ s with sink := some { sk with buf := sk.buf ++ [str] } }, [])
  | Except.ok (WsMsg.binary _) => ({ s with state := SState.closed }, [])
  | Except.ok WsMsg.close => ({ s with state := SState.closed }, [])
  | Except.ok WsMsg.continuation => ({ s with state := SState.closed }, [])
  | Except.ok WsMsg.nop => (s, [])

/-- The heartbeat interval callback (`WsSession::hb`, session.rs 31-37),
run every 1 second: if strictly more than 10 seconds elapsed since the
last heartbeat, `ctx.stop()` the session. -/
def heartbeatTick (s : Session) (now : Nat) : Session :=
  if now - s.hb > 10 then { s with state := SState.closed } else s

/-- The outbound relay `StreamHandler<Bytes>::handle` (session.rs 114-116): bytes arriving
on the outbound event stream are written to the transport with
`ctx.text(std::str::from_utf8_unchecked(&data))` — forwarded unchanged
as a text frame, with no UTF-8 validation of any kind. -/
def handleSubscriptionBytes (s : Session) (data : List Nat) : Session × List OutFrame :=
  (s, [OutFrame.text data])

/-- The three event sources the session actor multiplexes. -/
inductive SessionEvent where
  | inbound (msg : Except Unit WsMsg)
  | tick
  | outbound (data : List Nat)

/-- One step of the session actor at time `now`. -/
def sessionStep (s : Session) (now : Nat) : SessionEvent → Session × List OutFrame
  | SessionEvent.inbound m => handleWsMessage s now m
  | SessionEvent.tick => (heartbeatTick s now, [])
  | SessionEvent.outbound data => handleSubscriptionBytes s data

/-- Run the session over a timed event trace. -/
def runSession (s : Session) : List (Nat × SessionEvent) → Session
  | [] => s
  | (t, e) :: rest => runSession (sessionStep s t e).1 rest

/-- A trace in which the client's only inbound activity is pong frames
and every heartbeat tick fires within 10 seconds of the then-current
last-heartbeat instant ("sends a pong within every timeout window"). -/
def pongCoveredTrace (s : Session) : List (Nat × SessionEvent) → Bool
  | [] => true
  | (t, SessionEvent.tick) :: rest =>
    decide (t - s.hb ≤ 10) && pongCoveredTrace (heartbeatTick s t) rest
  | (t, SessionEvent.inbound (Except.ok (WsMsg.pong p))) :: rest =>
    pongCoveredTrace (handleWsMessage s t (Except.ok (WsMsg.pong p))).1 rest
  | _ => false

/-- The session together with its registry slot.  The registry entry is
created by `subscription_connection` when the session starts. -/
structure WsSystem where
  session : Session
  registry : List (Nat × Sender)
  slot : Nat

/-- Modelled from the spec: the deregistration performed on session
termination lives in the subscription-stream code, which is not among
the supplied sources.  Spec §4.4: "termination must deregister the
session's registry entry so `publish` stops attempting delivery to it".
Stopping the session removes its slot from the registry. -/
def terminateSession (sys : WsSystem) : WsSystem :=
  { sys with
    session := { sys.session with state := SState.closed },
    registry := sys.registry.filter (fun p => p.1 ≠ sys.slot) }

/-- The heartbeat interval callback at system level: on timeout the
session stops and (spec §4.4) is deregistered. -/
def systemTick (sys : WsSystem) (now : Nat) : WsSystem :=
  if now - sys.session.hb > 10 then terminateSession sys else sys

/-- UTF-8 well-formedness of a byte sequence (RFC 3629 byte patterns);
used only to state that the outbound relay performs no such check. -/
def utf8Valid : List Nat → Bool
  | [] => true
  | b :: rest =>
    if b ≤ 0x7F then utf8Valid rest
    else if 0xC2 ≤ b && b ≤ 0xDF then
      match rest with
      | b1 :: r => (0x80 ≤ b1 && b1 ≤ 0xBF) && utf8Valid r
      | [] => false
    else if b == 0xE0 then
      match rest with
      | b1 :: b2 :: r => (0xA0 ≤ b1 && b1 ≤ 0xBF) && (0x80 ≤ b2 && b2 ≤ 0xBF) && utf8Valid r
      | _ => false
    else if (0xE1 ≤ b && b ≤ 0xEC) || b == 0xEE || b == 0xEF then
      match rest with
      | b1 :: b2 :: r => (0x80 ≤ b1 && b1 ≤ 0xBF) && (0x80 ≤ b2 && b2 ≤ 0xBF) && utf8Valid r
      | _ => false
    else if b == 0xED then
      match rest with
      | b1 :: b2 :: r => (0x80 ≤ b1 && b1 ≤ 0x9F) && (0x80 ≤ b2 && b2 ≤ 0xBF) && utf8Valid r
      | _ => false
    else if b == 0xF0 then
      match rest with
      | b1 :: b2 :: b3 :: r =>
        (0x90 ≤ b1 && b1 ≤ 0xBF) && (0x80 ≤ b2 && b2 ≤ 0xBF) && (0x80 ≤ b3 && b3 ≤ 0xBF) && utf8Valid r
      | _ => false
    else if 0xF1 ≤ b && b ≤ 0xF3 then
      match rest with
      | b1 :: b2 :: b3 :: r =>
        (0x80 ≤ b1 && b1 ≤ 0xBF) && (0x80 ≤ b2 && b2 ≤ 0xBF) && (0x80 ≤ b3 && b3 ≤ 0xBF) && utf8Valid r
      | _ => false
    else if b == 0xF4 then
      match rest with
      | b1 :: b2 :: b3 :: r =>
        (0x80 ≤ b1 && b1 ≤ 0x8F) && (0x80 ≤ b2 && b2 ≤ 0xBF) && (0x80 ≤ b3 && b3 ≤ 0xBF) && utf8Valid r
      | _ => false
    else false

/-! ## Helper lemmas -/

theorem fanout_all_ok (m : Nat) (l : List (Nat × Sender))
    (h : ∀ p ∈ l, p.2.closed = false) :
    fanout m l = (l.map (deliver m), []) := by
  induction l with
  | nil => simp [fanout]
  | cons hd tl ih =>
    obtain ⟨id, s⟩ := hd
    have hs : s.closed = false := h (id, s) (by simp)
    have htl : ∀ p ∈ tl, p.2.closed = false := fun p hp => h p (by simp [hp])
    simp [fanout, sendMsg, hs, ih htl, deliver]

theorem fanout_append (m : Nat) (l1 l2 : List (Nat × Sender)) :
    fanout m (l1 ++ l2)
      = ((fanout m l1).1 ++ (fanout m l2).1, (fanout m l1).2 ++ (fanout m l2).2) := by
  induction l1 with
  | nil => simp [fanout]
  | cons hd tl ih =>
    obtain ⟨id, s⟩ := hd
    cases hsm : sendMsg s m with
    | ok s2 => simp [fanout, hsm, ih]
    | error e => simp [fanout, hsm, ih]

theorem slabRemoveAll_single (l : List (Nat × Sender)) (k : Nat) :
    slabRemoveAll l [k] = l.filter (fun p => p.1 ≠ k) := by
  simp [slabRemoveAll]

/-- Claim C1: with N registered subscriber channels of which exactly one
(slot `k`) is pre-closed, `publish` delivers the event to all N−1
remaining subscribers (each healthy inbox gets the message appended, in
registry order), removes only the failed entry — and only after the
full iteration, the removal list being applied to the un-mutated map —
leaving exactly N−1 entries registered; `publish` is total and returns
the pruned registry, never an error value. -/
theorem publish_fanout_isolation (a b : List (Nat × Sender)) (k : Nat) (sk : Sender) (m : Nat)
    (hclosed : sk.closed = true)
    (hopen : ∀ p ∈ a ++ b, p.2.closed = false)
    (hids : ∀ p ∈ a ++ b, p.1 ≠ k) :
    publish (a ++ (k, sk) :: b) m = (a ++ b).map (deliver m)
    ∧ (publish (a ++ (k, sk) :: b) m).length = (a ++ (k, sk) :: b).length - 1 := by
  have ha : ∀ p ∈ a, p.2.closed = false := fun p hp => hopen p (by simp [hp])
  have hbo : ∀ p ∈ b, p.2.closed = false := fun p hp => hopen p (by simp [hp])
  have hmid : fanout m ((k, sk) :: b) = ((k, sk) :: b.map (deliver m), [k]) := by
    simp [fanout, sendMsg, hclosed, fanout_all_ok m b hbo]
  have hfan : fanout m (a ++ (k, sk) :: b)
      = (a.map (deliver m) ++ (k, sk) :: b.map (deliver m), [k]) := by
    rw [fanout_append, fanout_all_ok m a ha, hmid]
    rfl
  have h1 : List.filter (fun p => !decide (p.1 = k)) (List.map (deliver m) a)
      = List.map (deliver m) a := by
    apply List.filter_eq_self.mpr
    intro p hp
    obtain ⟨q, hq, rfl⟩ := List.mem_map.mp hp
    simpa [deliver] using hids q (by simp [hq])
  have h2 : List.filter (fun p => !decide (p.1 = k)) (List.map (deliver m) b)
      = List.map (deliver m) b := by
    apply List.filter_eq_self.mpr
    intro p hp
    obtain ⟨q, hq, rfl⟩ := List.mem_map.mp hp
    simpa [deliver] using hids q (by simp [hq])
  have hmain : publish (a ++ (k, sk) :: b) m = (a ++ b).map (deliver m) := by
    rw [publish, hfan]
    rw [slabRemoveAll_single]
    simp only [ne_eq, List.filter_append, List.filter_cons]
    simp [h1, h2]
  refine ⟨hmain, ?_⟩
  rw [hmain]
  simp only [List.length_map, List.length_append, List.length_cons]
  omega

/-- Witness for C1: three registered channels, the middle one (slot 1)
pre-closed; the event 5 reaches slots 0 and 2 and slot 1 is pruned. -/
theorem publish_fanout_isolation_witness :
    (Sender.mk true []).closed = true
    ∧ publish [(0, Sender.mk false []), (1, Sender.mk true []), (2, Sender.mk false [7])] 5
        = [(0, Sender.mk false [5]), (2, Sender.mk false [7, 5])]
    ∧ (publish [(0, Sender.mk false []), (1, Sender.mk true []), (2, Sender.mk false [7])] 5).length
        = 3 - 1 := by
  have h := publish_fanout_isolation [(0, Sender.mk false [])] [(2, Sender.mk false [7])]
    1 (Sender.mk true []) 5 rfl (by simp) (by simp)
  refine ⟨rfl, ?_, ?_⟩
  · simpa [deliver] using h.1
  · simpa using h.2

theorem fanout_preserves_ids (m : Nat) (l : List (Nat × Sender)) :
    (fanout m l).1.map Prod.fst = l.map Prod.fst := by
  induction l with
  | nil => simp [fanout]
  | cons hd tl ih =>
    obtain ⟨id, s⟩ := hd
    cases hsm : sendMsg s m with
    | ok s2 => simp [fanout, hsm, ih]
    | error e => simp [fanout, hsm, ih]

theorem mem_slabRemoveAll (p : Nat × Sender) (ids : List Nat) (l : List (Nat × Sender))
    (h : p ∈ slabRemoveAll l ids) : p ∈ l := by
  induction ids generalizing l with
  | nil => simpa [slabRemoveAll] using h
  | cons i ids ih =>
    have h2 := ih (l.filter (fun q => q.1 ≠ i)) (by simpa [slabRemoveAll] using h)
    exact (List.mem_filter.mp h2).1

theorem publish_id_mem (l : List (Nat × Sender)) (m : Nat) (p : Nat × Sender)
    (h : p ∈ publish l m) : p.1 ∈ l.map Prod.fst := by
  simp only [publish] at h
  have h1 : p ∈ (fanout m l).1 := mem_slabRemoveAll p (fanout m l).2 (fanout m l).1 h
  have h2 := List.mem_map_of_mem Prod.fst h1
  rwa [fanout_preserves_ids] at h2

/-- Claim C5: when the heartbeat timer (ticking every 1 second) fires at a
moment strictly more than 10 seconds after the session's last-heartbeat
instant, the session transitions to `closed` and its slot is removed
from the subscription registry, so that no entry `publish` would
subsequently iterate over — on the post-tick registry, for any message
— carries the session's slot id. -/
theorem heartbeat_timeout_closes_and_deregisters (sys : WsSystem) (now : Nat)
    (h : now - sys.session.hb > 10) :
    (systemTick sys now).session.state = SState.closed
    ∧ (∀ p ∈ (systemTick sys now).registry, p.1 ≠ sys.slot)
    ∧ (∀ m p, p ∈ publish (systemTick sys now).registry m → p.1 ≠ sys.slot) := by
  have hsys : systemTick sys now = terminateSession sys := by
    simp [systemTick, h]
  rw [hsys]
  refine ⟨rfl, ?_, ?_⟩
  · intro p hp
    have := (List.mem_filter.mp hp).2
    simpa using this
  · intro m p hp
    have hid := publish_id_mem _ m p hp
    simp only [terminateSession] at hid
    obtain ⟨q, hq, hfst⟩ := List.mem_map.mp hid
    have := (List.mem_filter.mp hq).2
    rw [← hfst]
    simpa using this

/-- Witness for C5: a session last heard from at instant 0, timer firing
at instant 11 (elapsed 11 > 10), slot 1 registered among two entries. -/
theorem heartbeat_timeout_closes_and_deregisters_witness :
    11 - (WsSystem.mk (Session.mk 0 SState.active none)
        [(1, Sender.mk false []), (2, Sender.mk false [])] 1).session.hb > 10
    ∧ ((systemTick (WsSystem.mk (Session.mk 0 SState.active none)
          [(1, Sender.mk false []), (2, Sender.mk false [])] 1) 11).session.state = SState.closed
      ∧ (∀ p ∈ (systemTick (WsSystem.mk (Session.mk 0 SState.active none)
            [(1, Sender.mk false []), (2, Sender.mk false [])] 1) 11).registry, p.1 ≠ 1)
      ∧ (∀ m p, p ∈ publish (systemTick (WsSystem.mk (Session.mk 0 SState.active none)
            [(1, Sender.mk false []), (2, Sender.mk false [])] 1) 11).registry m → p.1 ≠ 1)) :=
  ⟨by decide,
   heartbeat_timeout_closes_and_deregisters
     (WsSystem.mk (Session.mk 0 SState.active none)
       [(1, Sender.mk false []), (2, Sender.mk false [])] 1) 11 (by decide)⟩

theorem handleWsMessage_text_preserves (s : Session) (now : Nat) (str : String) :
    (handleWsMessage s now (Except.ok (WsMsg.text str))).1.hb = s.hb
    ∧ (handleWsMessage s now (Except.ok (WsMsg.text str))).1.state = s.state := by
  cases hsk : s.sink with
  | none => simp [handleWsMessage, hsk]
  | some sk =>
    by_cases hc : sk.closed = true
    · simp [handleWsMessage, hsk, hc]
    · simp [handleWsMessage, hsk, hc]

theorem runSession_append (s : Session) (evs1 evs2 : List (Nat × SessionEvent)) :
    runSession s (evs1 ++ evs2) = runSession (runSession s evs1) evs2 := by
  induction evs1 generalizing s with
  | nil => simp [runSession]
  | cons te rest ih =>
    obtain ⟨t, e⟩ := te
    simp [runSession, ih]

theorem runSession_texts_preserves (s : Session) (ts : List (Nat × String)) :
    (runSession s (ts.map fun te =>
        (te.1, SessionEvent.inbound (Except.ok (WsMsg.text te.2))))).hb = s.hb
    ∧ (runSession s (ts.map fun te =>
        (te.1, SessionEvent.inbound (Except.ok (WsMsg.text te.2))))).state = s.state := by
  induction ts generalizing s with
  | nil => simp [runSession]
  | cons te rest ih =>
    obtain ⟨t, str⟩ := te
    have hstep := handleWsMessage_text_preserves s t str
    have hrest := ih (handleWsMessage s t (Except.ok (WsMsg.text str))).1
    simp only [List.map_cons, runSession, sessionStep]
    exact ⟨hrest.1.trans hstep.1, hrest.2.trans hstep.2⟩

/-- Claim C6: a pong frame updates the last-heartbeat instant (and nothing
else); a ping frame updates it and echoes a pong carrying the same
payload; consequently a session that is active and whose trace consists
of pongs plus heartbeat ticks each firing within 10 seconds of the
then-current last-heartbeat instant is still active after the whole
trace — the heartbeat timer never stops it. -/
theorem pong_keeps_session_active :
    (∀ (s : Session) (now : Nat) (p : List Nat),
      handleWsMessage s now (Except.ok (WsMsg.pong p)) = ({ s with hb := now }, []))
    ∧ (∀ (s : Session) (now : Nat) (p : List Nat),
      handleWsMessage s now (Except.ok (WsMsg.ping p)) = ({ s with hb := now }, [OutFrame.pong p]))
    ∧ (∀ (s : Session) (evs : List (Nat × SessionEvent)),
      s.state = SState.active → pongCoveredTrace s evs = true →
      (runSession s evs).state = SState.active) := by
  refine ⟨fun s now p => rfl, fun s now p => rfl, ?_⟩
  intro s evs
  induction evs generalizing s with
  | nil =>
    intro hs _
    simpa [runSession] using hs
  | cons te rest ih =>
    obtain ⟨t, e⟩ := te
    intro hs hcov
    cases e with
    | tick =>
      rw [pongCoveredTrace] at hcov
      have h1 : t - s.hb ≤ 10 := by
        have := (Bool.and_eq_true _ _).mp hcov
        simpa using this.1
      have h2 : pongCoveredTrace (heartbeatTick s t) rest = true := by
        have := (Bool.and_eq_true _ _).mp hcov
        exact this.2
      have htk : heartbeatTick s t = s := by
        simp only [heartbeatTick]
        rw [if_neg]
        omega
      rw [htk] at h2
      simp only [runSession, sessionStep]
      rw [htk]
      exact ih s hs h2
    | outbound d => simp [pongCoveredTrace] at hcov
    | inbound m =>
      cases m with
      | error u => simp [pongCoveredTrace] at hcov
      | ok w =>
        cases w with
        | pong p =>
          rw [pongCoveredTrace] at hcov
          simp only [runSession, sessionStep]
          exact ih _ (by simpa [handleWsMessage] using hs) hcov
        | ping p => simp [pongCoveredTrace] at hcov
        | text str => simp [pongCoveredTrace] at hcov
        | binary bts => simp [pongCoveredTrace] at hcov
        | close => simp [pongCoveredTrace] at hcov
        | continuation => simp [pongCoveredTrace] at hcov
        | nop => simp [pongCoveredTrace] at hcov

/-- Witness for C6: pongs at instants 5 and 12 cover the ticks at 8 and
15; the session that started at instant 0 is still active. -/
theorem pong_keeps_session_active_witness :
    (Session.mk 0 SState.active none).state = SState.active
    ∧ pongCoveredTrace (Session.mk 0 SState.active none)
        [(5, SessionEvent.inbound (Except.ok (WsMsg.pong []))), (8, SessionEvent.tick),
         (12, SessionEvent.inbound (Except.ok (WsMsg.pong []))), (15, SessionEvent.tick)] = true
    ∧ (runSession (Session.mk 0 SState.active none)
        [(5, SessionEvent.inbound (Except.ok (WsMsg.pong []))), (8, SessionEvent.tick),
         (12, SessionEvent.inbound (Except.ok (WsMsg.pong []))), (15, SessionEvent.tick)]).state
        = SState.active :=
  ⟨rfl, by decide,
   pong_keeps_session_active.2.2 (Session.mk 0 SState.active none)
     [(5, SessionEvent.inbound (Except.ok (WsMsg.pong []))), (8, SessionEvent.tick),
      (12, SessionEvent.inbound (Except.ok (WsMsg.pong []))), (15, SessionEvent.tick)]
     rfl (by decide)⟩

/-- Claim C7: relaying an inbound text frame into the pipeline sink never
changes the session's lifecycle state or heartbeat instant and emits
nothing to the transport; in particular when the sink has closed (the
send fails) the session is left entirely unchanged — the error is
swallowed. -/
theorem text_relay_error_swallowed (s : Session) (now : Nat) (str : String) :
    ((handleWsMessage s now (Except.ok (WsMsg.text str))).1.state = s.state
      ∧ (handleWsMessage s now (Except.ok (WsMsg.text str))).1.hb = s.hb
      ∧ (handleWsMessage s now (Except.ok (WsMsg.text str))).2 = [])
    ∧ (∀ sk, s.sink = some sk → sk.closed = true →
        handleWsMessage s now (Except.ok (WsMsg.text str)) = (s, [])) := by
  constructor
  · cases hsk : s.sink with
    | none => simp [handleWsMessage, hsk]
    | some sk =>
      by_cases hc : sk.closed = true
      · simp [handleWsMessage, hsk, hc]
      · simp [handleWsMessage, hsk, hc]
  · intro sk hsk hc
    simp [handleWsMessage, hsk, hc]

/-- Witness for C7: a session whose sink has closed relays "q" and is
left exactly as it was, with no output and no error. -/
theorem text_relay_error_swallowed_witness :
    (Session.mk 3 SState.active (some (Sink.mk true []))).sink = some (Sink.mk true [])
    ∧ (Sink.mk true []).closed = true
    ∧ handleWsMessage (Session.mk 3 SState.active (some (Sink.mk true []))) 9
        (Except.ok (WsMsg.text ("q")))
        = (Session.mk 3 SState.active (some (Sink.mk true [])), []) :=
  ⟨rfl, rfl,
   (text_relay_error_swallowed (Session.mk 3 SState.active (some (Sink.mk true []))) 9 ("q")).2
     (Sink.mk true []) rfl rfl⟩

/-- Claim C8: every byte sequence arriving on the outbound event stream is
forwarded to the transport as a text frame with the bytes unchanged and
the session untouched — for all inputs, hence with no well-formedness
check — and in particular this also holds for byte sequences that are
not valid UTF-8. -/
theorem outbound_bytes_forwarded_unvalidated (s : Session) (data : List Nat) :
    handleSubscriptionBytes s data = (s, [OutFrame.text data])
    ∧ (utf8Valid data = false → handleSubscriptionBytes s data = (s, [OutFrame.text data])) :=
  ⟨rfl, fun _ => rfl⟩

/-- Witness for C8: the single byte 0xFF is not valid UTF-8 and is
forwarded unchanged anyway. -/
theorem outbound_bytes_forwarded_unvalidated_witness :
    utf8Valid [255] = false
    ∧ handleSubscriptionBytes (Session.mk 0 SState.active none) [255]
        = (Session.mk 0 SState.active none, [OutFrame.text [255]]) :=
  ⟨by decide,
   (outbound_bytes_forwarded_unvalidated (Session.mk 0 SState.active none) [255]).2 (by decide)⟩

/-- Claim C10: only ping and pong frames update the last-heartbeat instant —
text frames, Nop frames and outbound events leave it unchanged, while
ping and pong set it to the current instant; consequently an active
session whose client sends only text frames is stopped by the first
heartbeat tick firing more than 10 seconds after the session's
last-heartbeat instant, despite the inbound activity. -/
theorem only_ping_pong_update_heartbeat :
    (∀ (s : Session) (now : Nat) (str : String),
      (handleWsMessage s now (Except.ok (WsMsg.text str))).1.hb = s.hb)
    ∧ (∀ (s : Session) (now : Nat),
      (handleWsMessage s now (Except.ok WsMsg.nop)).1.hb = s.hb)
    ∧ (∀ (s : Session) (data : List Nat), (handleSubscriptionBytes s data).1.hb = s.hb)
    ∧ (∀ (s : Session) (now : Nat) (p : List Nat),
      (handleWsMessage s now (Except.ok (WsMsg.ping p))).1.hb = now)
    ∧ (∀ (s : Session) (now : Nat) (p : List Nat),
      (handleWsMessage s now (Except.ok (WsMsg.pong p))).1.hb = now)
    ∧ (∀ (s : Session) (ts : List (Nat × String)) (t : Nat),
      s.state = SState.active → t - s.hb > 10 →
      (runSession s ((ts.map fun te =>
          (te.1, SessionEvent.inbound (Except.ok (WsMsg.text te.2)))) ++ [(t, SessionEvent.tick)])).state
        = SState.closed) := by
  refine ⟨fun s now str => (handleWsMessage_text_preserves s now str).1,
    fun s now => rfl, fun s data => rfl, fun s now p => rfl, fun s now p => rfl, ?_⟩
  intro s ts t hs htime
  rw [runSession_append]
  have hpres := runSession_texts_preserves s ts
  simp only [runSession, sessionStep, heartbeatTick]
  rw [hpres.1, if_pos htime]

/-- Witness for C10: a client sending only text frames at instants 2
and 9 is closed by the tick at instant 11 (11 − 0 > 10). -/
theorem only_ping_pong_update_heartbeat_witness :
    (Session.mk 0 SState.active (some (Sink.mk false []))).state = SState.active
    ∧ 11 - (Session.mk 0 SState.active (some (Sink.mk false []))).hb > 10
    ∧ (runSession (Session.mk 0 SState.active (some (Sink.mk false [])))
        ((([(2, ("a")), (9, ("b"))] : List (Nat × String)).map fun te =>
          (te.1, SessionEvent.inbound (Except.ok (WsMsg.text te.2))))
         ++ [(11, SessionEvent.tick)])).state = SState.closed :=
  ⟨rfl, by decide,
   only_ping_pong_update_heartbeat.2.2.2.2.2 (Session.mk 0 SState.active (some (Sink.mk false [])))
     [(2, ("a")), (9, ("b"))] 11 rfl (by decide)⟩

theorem lookup_append_of_none {α β : Type} [BEq α] (l1 l2 : List (α × β)) (a : α)
    (h : List.lookup a l1 = none) :
    List.lookup a (l1 ++ l2) = List.lookup a l2 := by
  induction l1 with
  | nil => rfl
  | cons p rest ih =>
    obtain ⟨k, v⟩ := p
    cases hak : (a == k) with
    | true => rw [List.lookup, hak] at h; exact absurd h (by simp)
    | false =>
      rw [List.lookup, hak] at h
      rw [List.cons_append, List.lookup, hak]
      exact ih h

theorem create_subscription_types_append
    (ct : Selection → TypeMap → Except QueryError TypeMap) (vars : Variables)
    (fr : FragmentMap) (fuel : Nat) (l1 l2 : List Selection) (types : TypeMap) :
    create_subscription_types ct vars fr fuel (l1 ++ l2) types
      = (match create_subscription_types ct vars fr fuel l1 types with
         | Except.error e => Except.error e
         | Except.ok t2 => create_subscription_types ct vars fr fuel l2 t2) := by
  induction l1 generalizing types with
  | nil => simp [create_subscription_types]
  | cons sel rest ih =>
    cases sel with
    | field name dirs ss =>
      cases hsk : is_skip vars dirs with
      | error e => simp [create_subscription_types, hsk]
      | ok b =>
        cases b with
        | true => simp [create_subscription_types, hsk, ih]
        | false =>
          cases hct : ct (Selection.field name dirs ss) types with
          | error e => simp [create_subscription_types, hsk, hct]
          | ok t2 => simp [create_subscription_types, hsk, hct, ih]
    | fragmentSpread fname dirs =>
      cases hsk : is_skip vars dirs with
      | error e => simp [create_subscription_types, hsk]
      | ok b =>
        cases b with
        | true => simp [create_subscription_types, hsk, ih]
        | false =>
          cases hlk : List.lookup fname fr with
          | none => simp [create_subscription_types, hsk, hlk]
          | some fsel =>
            cases fuel with
            | zero => simp [create_subscription_types, hsk, hlk]
            | succ f2 =>
              cases hrec : create_subscription_types ct vars fr f2 fsel types with
              | error e => simp [create_subscription_types, hsk, hlk, hrec]
              | ok t2 => simp [create_subscription_types, hsk, hlk, hrec, ih]
    | inlineFragment dirs ss =>
      cases hsk : is_skip vars dirs with
      | error e => simp [create_subscription_types, hsk]
      | ok b =>
        cases b with
        | true => simp [create_subscription_types, hsk, ih]
        | false =>
          cases hrec : create_subscription_types ct vars fr fuel ss types with
          | error e => simp [create_subscription_types, hsk, hrec]
          | ok t2 => simp [create_subscription_types, hsk, hrec, ih]

/-- Claim C2: when the walk of a subscription operation's selection set
reaches a fragment spread (not skipped by directives) whose name is
absent from the fragment table — the selections before it having
compiled without error — `create_subscription_types` fails with
`unknownFragment` carrying exactly that name, and consequently
`create_subscription_stub` on any document that collects to this
fragment table and operation returns that error and no stub. -/
theorem create_subscription_types_unknown_fragment
    (ct : Selection → TypeMap → Except QueryError TypeMap) (vars : Variables)
    (fr : FragmentMap) (fuel : Nat) (pre rest : List Selection) (g : String)
    (dirs : List GDirective) (t2 : TypeMap)
    (hpre : create_subscription_types ct vars fr fuel pre [] = Except.ok t2)
    (hskip : is_skip vars dirs = Except.ok false)
    (hmissing : List.lookup g fr = none) :
    create_subscription_types ct vars fr fuel
        (pre ++ Selection.fragmentSpread g dirs :: rest) []
      = Except.error (QueryError.unknownFragment g)
    ∧ ∀ (document : List QDefinition) (opName nm : Option String),
        collectSubscription opName document []
          = (fr, some (nm, pre ++ Selection.fragmentSpread g dirs :: rest)) →
        create_subscription_stub ct fuel document opName vars
          = Except.error (QueryError.unknownFragment g) := by
  have hmain : create_subscription_types ct vars fr fuel
      (pre ++ Selection.fragmentSpread g dirs :: rest) []
      = Except.error (QueryError.unknownFragment g) := by
    rw [create_subscription_types_append, hpre]
    simp [create_subscription_types, hskip, hmissing]
  refine ⟨hmain, ?_⟩
  intro document opName nm hcol
  simp [create_subscription_stub, hcol, hmain]

/-- Witness for C2: an anonymous subscription spreading the undefined
fragment `F` fails to compile with `unknownFragment "F"`. -/
theorem create_subscription_types_unknown_fragment_witness :
    create_subscription_types (modelCreateType fun _ => [1]) [] [] 5 [] [] = Except.ok []
    ∧ is_skip [] [] = Except.ok false
    ∧ List.lookup ("F") ([] : FragmentMap) = none
    ∧ collectSubscription none [QDefinition.subscriptionOp none [Selection.fragmentSpread ("F") []]] []
        = ([], some (none, [Selection.fragmentSpread ("F") []]))
    ∧ create_subscription_stub (modelCreateType fun _ => [1]) 5
        [QDefinition.subscriptionOp none [Selection.fragmentSpread ("F") []]] none []
        = Except.error (QueryError.unknownFragment ("F")) := by
  refine ⟨by simp [create_subscription_types], rfl, rfl, rfl, ?_⟩
  exact (create_subscription_types_unknown_fragment (modelCreateType fun _ => [1]) [] [] 5
      [] [] ("F") [] [] (by simp [create_subscription_types]) rfl rfl).2
    [QDefinition.subscriptionOp none [Selection.fragmentSpread ("F") []]] none none rfl

/-- Claim C3: a selection whose directives evaluate to "omit" — a field,
fragment spread or inline fragment under `@skip(if: true)`, or a field
under `@include(if: false)` — contributes nothing to the compiled
mapping and is not recursed into (the walk continues with the remaining
selections over the unchanged map); under `@skip(if: false)` or
`@include(if: true)` the field is handed to `create_type`, which (with a
fresh event type id for the field) records it, so the field is present
in the resulting mapping. -/
theorem subscription_skip_include_directives
    (ct : Selection → TypeMap → Except QueryError TypeMap) (vars : Variables)
    (fr : FragmentMap) (fuel : Nat) (rest : List Selection) (types : TypeMap)
    (name : String) (ss : List Selection) (g : String) :
    (create_subscription_types ct vars fr fuel
        (Selection.field name [GDirective.mk ("skip") [("if", GValue.boolean true)]] ss :: rest) types
      = create_subscription_types ct vars fr fuel rest types)
    ∧ (create_subscription_types ct vars fr fuel
        (Selection.field name [GDirective.mk ("include") [("if", GValue.boolean false)]] ss :: rest) types
      = create_subscription_types ct vars fr fuel rest types)
    ∧ (create_subscription_types ct vars fr fuel
        (Selection.fragmentSpread g [GDirective.mk ("skip") [("if", GValue.boolean true)]] :: rest) types
      = create_subscription_types ct vars fr fuel rest types)
    ∧ (create_subscription_types ct vars fr fuel
        (Selection.inlineFragment [GDirective.mk ("skip") [("if", GValue.boolean true)]] ss :: rest) types
      = create_subscription_types ct vars fr fuel rest types)
    ∧ (∀ id : Nat, List.lookup id types = none →
      ∀ ft : String → List Nat, ft name = [id] →
      create_subscription_types (modelCreateType ft) vars fr fuel
          (Selection.field name [GDirective.mk ("skip") [("if", GValue.boolean false)]] ss :: rest) types
        = create_subscription_types (modelCreateType ft) vars fr fuel rest
            (types ++ [(id, Selection.field name [GDirective.mk ("skip") [("if", GValue.boolean false)]] ss)])
      ∧ List.lookup id
          (types ++ [(id, Selection.field name [GDirective.mk ("skip") [("if", GValue.boolean false)]] ss)])
        = some (Selection.field name [GDirective.mk ("skip") [("if", GValue.boolean false)]] ss))
    ∧ (∀ id : Nat, List.lookup id types = none →
      ∀ ft : String → List Nat, ft name = [id] →
      create_subscription_types (modelCreateType ft) vars fr fuel
          (Selection.field name [GDirective.mk ("include") [("if", GValue.boolean true)]] ss :: rest) types
        = create_subscription_types (modelCreateType ft) vars fr fuel rest
            (types ++ [(id, Selection.field name [GDirective.mk ("include") [("if", GValue.boolean true)]] ss)])) := by
  have hskT : is_skip vars [GDirective.mk ("skip") [("if", GValue.boolean true)]] = Except.ok true := rfl
  have hincF : is_skip vars [GDirective.mk ("include") [("if", GValue.boolean false)]]
      = Except.ok true := rfl
  have hskF : is_skip vars [GDirective.mk ("skip") [("if", GValue.boolean false)]]
      = Except.ok false := rfl
  have hincT : is_skip vars [GDirective.mk ("include") [("if", GValue.boolean true)]]
      = Except.ok false := rfl
  refine ⟨by simp [create_subscription_types, hskT],
    by simp [create_subscription_types, hincF],
    by simp [create_subscription_types, hskT],
    by simp [create_subscription_types, hskT], ?_, ?_⟩
  · intro id hid ft hft
    have hct : modelCreateType ft
        (Selection.field name [GDirective.mk ("skip") [("if", GValue.boolean false)]] ss) types
        = Except.ok (types
            ++ [(id, Selection.field name [GDirective.mk ("skip") [("if", GValue.boolean false)]] ss)]) := by
      simp [modelCreateType, hft, insertType, hid]
    refine ⟨by simp [create_subscription_types, hskF, hct], ?_⟩
    rw [lookup_append_of_none _ _ _ hid]
    simp [List.lookup]
  · intro id hid ft hft
    have hct : modelCreateType ft
        (Selection.field name [GDirective.mk ("include") [("if", GValue.boolean true)]] ss) types
        = Except.ok (types
            ++ [(id, Selection.field name [GDirective.mk ("include") [("if", GValue.boolean true)]] ss)]) := by
      simp [modelCreateType, hft, insertType, hid]
    simp [create_subscription_types, hincT, hct]

/-- Witness for C3: over an empty map, the field `n` under
`@skip(if: true)` compiles to nothing, while under `@skip(if: false)` it
is recorded under its event type id 0. -/
theorem subscription_skip_include_directives_witness :
    List.lookup 0 ([] : TypeMap) = none
    ∧ (fun _ : String => [0]) ("n") = [0]
    ∧ create_subscription_types (modelCreateType fun _ => [0]) [] [] 3
        [Selection.field ("n") [GDirective.mk ("skip") [("if", GValue.boolean true)]] []] []
      = create_subscription_types (modelCreateType fun _ => [0]) [] [] 3 [] []
    ∧ (create_subscription_types (modelCreateType fun _ => [0]) [] [] 3
        [Selection.field ("n") [GDirective.mk ("skip") [("if", GValue.boolean false)]] []] []
      = create_subscription_types (modelCreateType fun _ => [0]) [] [] 3 []
          ([] ++ [(0, Selection.field ("n") [GDirective.mk ("skip") [("if", GValue.boolean false)]] [])])
      ∧ List.lookup 0
          ([] ++ [(0, Selection.field ("n") [GDirective.mk ("skip") [("if", GValue.boolean false)]] [])])
        = some (Selection.field ("n") [GDirective.mk ("skip") [("if", GValue.boolean false)]] [])) :=
  ⟨rfl, rfl,
   (subscription_skip_include_directives (modelCreateType fun _ => [0]) [] [] 3 [] [] ("n") [] ("G")).1,
   (subscription_skip_include_directives (modelCreateType fun _ => [0]) [] [] 3 [] [] ("n") [] ("G")).2.2.2.2.1
     0 rfl (fun _ => [0]) rfl⟩

theorem collectSubscription_none (opName : Option String) (document : List QDefinition)
    (frags : FragmentMap)
    (h : ∀ nm ss, QDefinition.subscriptionOp nm ss ∈ document → nm ≠ opName) :
    (collectSubscription opName document frags).2 = none := by
  induction document generalizing frags with
  | nil => rfl
  | cons d rest ih =>
    cases d with
    | subscriptionOp n ss =>
      have hne : n ≠ opName := h n ss (by simp)
      rw [collectSubscription, if_neg hne]
      exact ih _ (fun nm s2 hm => h nm s2 (by simp [hm]))
    | otherOp =>
      rw [collectSubscription]
      exact ih _ (fun nm s2 hm => h nm s2 (by simp [hm]))
    | fragmentDef n ss =>
      rw [collectSubscription]
      exact ih _ (fun nm s2 hm => h nm s2 (by simp [hm]))

/-- Claim C4: if an operation name is supplied and no subscription operation
in the document carries that name, `create_subscription_stub` fails with
`unknownOperationNamed` carrying that name; if no operation name is
supplied and no anonymous subscription operation exists, it fails with
`missingOperation`; in both cases an error, never a stub, is returned. -/
theorem create_subscription_stub_operation_errors
    (ct : Selection → TypeMap → Except QueryError TypeMap) (fuel : Nat)
    (document : List QDefinition) (vars : Variables) :
    (∀ n : String,
      (∀ nm ss, QDefinition.subscriptionOp nm ss ∈ document → nm ≠ some n) →
      create_subscription_stub ct fuel document (some n) vars
        = Except.error (QueryError.unknownOperationNamed n))
    ∧ ((∀ nm ss, QDefinition.subscriptionOp nm ss ∈ document → nm ≠ none) →
      create_subscription_stub ct fuel document none vars
        = Except.error QueryError.missingOperation) := by
  constructor
  · intro n h
    rcases hc : collectSubscription (some n) document [] with ⟨frags, osub⟩
    have hnone : osub = none := by
      have h2 := collectSubscription_none (some n) document [] h
      rw [hc] at h2
      exact h2
    subst hnone
    simp [create_subscription_stub, hc]
  · intro h
    rcases hc : collectSubscription none document [] with ⟨frags, osub⟩
    have hnone : osub = none := by
      have h2 := collectSubscription_none none document [] h
      rw [hc] at h2
      exact h2
    subst hnone
    simp [create_subscription_stub, hc]

/-- Witness for C4: a document holding a fragment and one subscription
named `other` matches neither the requested name `x` nor an absent
name; both calls fail with the corresponding error. -/
theorem create_subscription_stub_operation_errors_witness :
    (∀ nm ss, QDefinition.subscriptionOp nm ss
        ∈ [QDefinition.fragmentDef ("F") [], QDefinition.subscriptionOp (some ("other")) []]
      → nm ≠ some ("x"))
    ∧ (∀ nm ss, QDefinition.subscriptionOp nm ss
        ∈ [QDefinition.fragmentDef ("F") [], QDefinition.subscriptionOp (some ("other")) []]
      → nm ≠ none)
    ∧ create_subscription_stub (modelCreateType fun _ => []) 3
        [QDefinition.fragmentDef ("F") [], QDefinition.subscriptionOp (some ("other")) []]
        (some ("x")) []
      = Except.error (QueryError.unknownOperationNamed ("x"))
    ∧ create_subscription_stub (modelCreateType fun _ => []) 3
        [QDefinition.fragmentDef ("F") [], QDefinition.subscriptionOp (some ("other")) []]
        none []
      = Except.error QueryError.missingOperation := by
  have hx : ∀ nm ss, QDefinition.subscriptionOp nm ss
      ∈ [QDefinition.fragmentDef ("F") [], QDefinition.subscriptionOp (some ("other")) []]
      → nm ≠ some ("x") := by
    intro nm ss h
    simp only [List.mem_cons, List.not_mem_nil, or_false] at h
    rcases h with h | h
    · exact absurd h (by intro hc; cases hc)
    · injection h with h1 h2
      rw [h1]
      decide
  have hn : ∀ nm ss, QDefinition.subscriptionOp nm ss
      ∈ [QDefinition.fragmentDef ("F") [], QDefinition.subscriptionOp (some ("other")) []]
      → nm ≠ none := by
    intro nm ss h
    simp only [List.mem_cons, List.not_mem_nil, or_false] at h
    rcases h with h | h
    · exact absurd h (by intro hc; cases hc)
    · injection h with h1 h2
      rw [h1]
      decide
  refine ⟨hx, hn, ?_, ?_⟩
  · exact (create_subscription_stub_operation_errors (modelCreateType fun _ => []) 3
      [QDefinition.fragmentDef ("F") [], QDefinition.subscriptionOp (some ("other")) []] []).1 ("x") hx
  · exact (create_subscription_stub_operation_errors (modelCreateType fun _ => []) 3
      [QDefinition.fragmentDef ("F") [], QDefinition.subscriptionOp (some ("other")) []] []).2 hn

theorem lookup_insertFragment_of_ne (frags : FragmentMap) (n g : String) (ss : List Selection)
    (hne : (g == n) = false) (h : List.lookup g frags = none) :
    List.lookup g (insertFragment frags n ss) = none := by
  rw [insertFragment]
  by_cases hin : (List.lookup n frags).isSome
  · rw [if_pos hin]
    clear hin
    revert h
    induction frags with
    | nil => intro h; rfl
    | cons p rest ih =>
      intro h
      obtain ⟨k, v⟩ := p
      rw [List.lookup] at h
      cases hgk : (g == k) with
      | true => rw [hgk] at h; exact absurd h (by simp)
      | false =>
        rw [hgk] at h
        simp only [List.map_cons]
        by_cases hkn : k = n
        · rw [if_pos hkn]
          rw [List.lookup, hne]
          exact ih h
        · rw [if_neg hkn]
          rw [List.lookup, hgk]
          exact ih h
  · rw [if_neg hin]
    rw [lookup_append_of_none _ _ _ h]
    rw [List.lookup, hne]
    rfl

theorem lookup_collectFragments_none (g : String) (pre : List QDefinition) (frags : FragmentMap)
    (hg : ∀ ss, QDefinition.fragmentDef g ss ∉ pre)
    (h0 : List.lookup g frags = none) :
    List.lookup g (collectFragments pre frags) = none := by
  induction pre generalizing frags with
  | nil => exact h0
  | cons d rest ih =>
    cases d with
    | fragmentDef n ss =>
      have hne : (g == n) = false := by
        cases hgn : (g == n) with
        | false => rfl
        | true =>
          have hgn2 : g = n := by simpa using hgn
          exact absurd (show QDefinition.fragmentDef g ss ∈ QDefinition.fragmentDef n ss :: rest by
            rw [hgn2]; exact List.mem_cons_self _ _) (hg ss)
      simp only [collectFragments]
      exact ih _ (fun ss2 hm => hg ss2 (List.mem_cons_of_mem _ hm))
        (lookup_insertFragment_of_ne frags n g ss hne h0)
    | subscriptionOp n ss =>
      simp only [collectFragments]
      exact ih _ (fun ss2 hm => hg ss2 (List.mem_cons_of_mem _ hm)) h0
    | otherOp =>
      simp only [collectFragments]
      exact ih _ (fun ss2 hm => hg ss2 (List.mem_cons_of_mem _ hm)) h0

theorem collectSubscription_through (opName : Option String) (pre post : List QDefinition)
    (ss : List Selection) (frags : FragmentMap)
    (h : ∀ nm ss2, QDefinition.subscriptionOp nm ss2 ∈ pre → nm ≠ opName) :
    collectSubscription opName (pre ++ QDefinition.subscriptionOp opName ss :: post) frags
      = (collectFragments pre frags, some (opName, ss)) := by
  induction pre generalizing frags with
  | nil =>
    simp only [List.nil_append, collectSubscription, collectFragments]
    simp
  | cons d rest ih =>
    cases d with
    | subscriptionOp n ss2 =>
      have hne : n ≠ opName := h n ss2 (by simp)
      simp only [List.cons_append, collectSubscription, collectFragments]
      rw [if_neg hne]
      exact ih _ (fun nm s2 hm => h nm s2 (by simp [hm]))
    | otherOp =>
      simp only [List.cons_append, collectSubscription, collectFragments]
      exact ih _ (fun nm s2 hm => h nm s2 (by simp [hm]))
    | fragmentDef n ss2 =>
      simp only [List.cons_append, collectSubscription, collectFragments]
      exact ih _ (fun nm s2 hm => h nm s2 (by simp [hm]))

/-- Claim C9: the definition-collection loop `break`s at the first matching
subscription operation, so the fragment table handed to the compiler
holds only the fragment definitions appearing before that operation in
document order; a fragment defined only after it is absent from the
table, and spreading it fails with `unknownFragment` even though the
definition is present in the document. -/
theorem fragments_after_matched_operation_invisible
    (ct : Selection → TypeMap → Except QueryError TypeMap) (fuel : Nat) (vars : Variables)
    (pre post : List QDefinition) (g : String) (gsel : List Selection) (opName : Option String)
    (hnomatch : ∀ nm ss, QDefinition.subscriptionOp nm ss ∈ pre → nm ≠ opName)
    (hnopre : ∀ ss, QDefinition.fragmentDef g ss ∉ pre)
    (hpost : QDefinition.fragmentDef g gsel ∈ post) :
    collectSubscription opName
        (pre ++ QDefinition.subscriptionOp opName [Selection.fragmentSpread g []] :: post) []
      = (collectFragments pre [], some (opName, [Selection.fragmentSpread g []]))
    ∧ List.lookup g (collectFragments pre []) = none
    ∧ create_subscription_stub ct fuel
        (pre ++ QDefinition.subscriptionOp opName [Selection.fragmentSpread g []] :: post)
        opName vars
      = Except.error (QueryError.unknownFragment g) := by
  have hcol := collectSubscription_through opName pre post [Selection.fragmentSpread g []]
    [] hnomatch
  have hlk : List.lookup g (collectFragments pre []) = none :=
    lookup_collectFragments_none g pre [] hnopre rfl
  refine ⟨hcol, hlk, ?_⟩
  have hcst : create_subscription_types ct vars (collectFragments pre []) fuel
      [Selection.fragmentSpread g []] [] = Except.error (QueryError.unknownFragment g) := by
    simp [create_subscription_types, is_skip, hlk]
  simp [create_subscription_stub, hcol, hcst]

/-- Witness for C9: the document `subscription a { } fragment H ...
subscription { ...G } fragment G { f }` — `G` is defined, but only after
the anonymous subscription that spreads it, so compilation fails with
`unknownFragment "G"`. -/
theorem fragments_after_matched_operation_invisible_witness :
    (∀ nm ss, QDefinition.subscriptionOp nm ss
        ∈ [QDefinition.subscriptionOp (some ("a")) [], QDefinition.fragmentDef ("H") []]
      → nm ≠ none)
    ∧ (∀ ss, QDefinition.fragmentDef ("G") ss
        ∉ [QDefinition.subscriptionOp (some ("a")) [], QDefinition.fragmentDef ("H") []])
    ∧ QDefinition.fragmentDef ("G") [Selection.field ("f") [] []]
        ∈ [QDefinition.fragmentDef ("G") [Selection.field ("f") [] []]]
    ∧ create_subscription_stub (modelCreateType fun _ => [0]) 4
        ([QDefinition.subscriptionOp (some ("a")) [], QDefinition.fragmentDef ("H") []]
          ++ QDefinition.subscriptionOp none [Selection.fragmentSpread ("G") []]
            :: [QDefinition.fragmentDef ("G") [Selection.field ("f") [] []]])
        none []
      = Except.error (QueryError.unknownFragment ("G")) := by
  have hnomatch : ∀ nm ss, QDefinition.subscriptionOp nm ss
      ∈ [QDefinition.subscriptionOp (some ("a")) [], QDefinition.fragmentDef ("H") []]
      → nm ≠ none := by
    intro nm ss h
    simp only [List.mem_cons, List.not_mem_nil, or_false] at h
    rcases h with h | h
    · injection h with h1 h2
      rw [h1]
      decide
    · exact absurd h (by intro hc; cases hc)
  have hnopre : ∀ ss, QDefinition.fragmentDef ("G") ss
      ∉ [QDefinition.subscriptionOp (some ("a")) [], QDefinition.fragmentDef ("H") []] := by
    intro ss h
    simp only [List.mem_cons, List.not_mem_nil, or_false] at h
    rcases h with h | h
    · cases h
    · injection h with h1 h2
      exact absurd h1 (by decide)
  have hpost : QDefinition.fragmentDef ("G") [Selection.field ("f") [] []]
      ∈ [QDefinition.fragmentDef ("G") [Selection.field ("f") [] []]] :=
    List.mem_cons_self _ _
  exact ⟨hnomatch, hnopre, hpost,
    (fragments_after_matched_operation_invisible (modelCreateType fun _ => [0]) 4 []
      [QDefinition.subscriptionOp (some ("a")) [], QDefinition.fragmentDef ("H") []]
      [QDefinition.fragmentDef ("G") [Selection.field ("f") [] []]]
      ("G") [Selection.field ("f") [] []] none hnomatch hnopre hpost).2.2⟩
